import Mathlib

/-!
Verification of the csv-sniffer metadata layer and sniffing engine.

The data model below embeds `src/metadata.rs` (the `Dialect`, `Header`,
`Quote`, `Escape`, `Comment` and `Metadata` types, the `PartialEq`
implementation for `Dialect`, the `From<Dialect> for ReaderBuilder`
conversion and `Dialect::open_reader`), and `src/bin/sniff.rs` (the CLI
entry point).  Bytes (`u8` in the source) are embedded as `Nat`; the
`csv` crate's `Terminator` and `ReaderBuilder` are embedded as the plain
data they carry.
-/

namespace CsvSniffer

/-- The `csv` crate's record terminator: the canonical CRLF convention or an
arbitrary single byte. -/
inductive Terminator where
  | CRLF : Terminator
  | Any : Nat → Terminator
deriving DecidableEq, Repr

/-- Quoting style: quotes disabled, or enabled with a given quote byte
(`Quote` in `src/metadata.rs`). -/
inductive Quote where
  | None : Quote
  | Some : Nat → Quote
deriving DecidableEq, Repr

/-- Escape convention: enabled with a given escape byte, or disabled
(`Escape` in `src/metadata.rs`). -/
inductive Escape where
  | Enabled : Nat → Escape
  | Disabled : Escape
deriving DecidableEq, Repr

/-- `From<Escape> for Option<u8>` in `src/metadata.rs`. -/
def Escape.toOption : Escape → Option Nat
  | Escape.Enabled chr => some chr
  | Escape.Disabled => none

/-- Comment convention: enabled with a given comment byte, or disabled
(`Comment` in `src/metadata.rs`). -/
inductive Comment where
  | Enabled : Nat → Comment
  | Disabled : Comment
deriving DecidableEq, Repr

/-- `From<Comment> for Option<u8>` in `src/metadata.rs`. -/
def Comment.toOption : Comment → Option Nat
  | Comment.Enabled chr => some chr
  | Comment.Disabled => none

/-- Header metadata (`Header` in `src/metadata.rs`): whether a header row is
present, and how many preamble rows precede the header (or first data) row. -/
structure Header where
  has_header_row : Bool
  num_preamble_rows : Nat
deriving DecidableEq, Repr

/-- Dialect-level metadata (`Dialect` in `src/metadata.rs`). -/
structure Dialect where
  delimiter : Nat
  header : Header
  terminator : Terminator
  quote : Quote
  doublequote_escapes : Bool
  escape : Escape
  comment : Comment
  flexible : Bool
deriving DecidableEq, Repr

/-- `impl PartialEq for Dialect` in `src/metadata.rs`: field-by-field
equality, with the terminator compared by an explicit match that equates
two `CRLF`s, equates `Any(left)`/`Any(right)` when the bytes agree, and
returns false for every other pairing. -/
def Dialect.eq (self other : Dialect) : Bool :=
  self.delimiter == other.delimiter
    && self.header == other.header
    && (match self.terminator, other.terminator with
        | Terminator.CRLF, Terminator.CRLF => true
        | Terminator.Any left, Terminator.Any right => left == right
        | _, _ => false)
    && self.quote == other.quote
    && self.doublequote_escapes == other.doublequote_escapes
    && self.escape == other.escape
    && self.comment == other.comment
    && self.flexible == other.flexible

end CsvSniffer

namespace Csv

/-- The configuration state accumulated by the `csv` crate's
`ReaderBuilder`: each field records the argument of the corresponding
builder method, starting from the crate's documented defaults
(`ReaderBuilder::new`). -/
structure ReaderBuilder where
  delimiter : Nat := 44
  has_headers : Bool := true
  terminator : CsvSniffer.Terminator := CsvSniffer.Terminator.CRLF
  escape : Option Nat := none
  double_quote : Bool := true
  comment : Option Nat := none
  flexible : Bool := false
  quoting : Bool := true
  quote : Nat := 34
deriving Repr

/-- `ReaderBuilder::new()`. -/
def ReaderBuilder.new : ReaderBuilder := {}

end Csv

namespace CsvSniffer

/-- `impl From<Dialect> for ReaderBuilder` in `src/metadata.rs`: the chained
builder calls, then the match on `dialect.quote` that either enables quoting
and sets the quote byte, or disables quoting. -/
def Dialect.toReaderBuilder (dialect : Dialect) : Csv.ReaderBuilder :=
  let bldr := Csv.ReaderBuilder.new
  let bldr := { bldr with
    delimiter := dialect.delimiter
    has_headers := dialect.header.has_header_row
    terminator := dialect.terminator
    escape := dialect.escape.toOption
    double_quote := dialect.doublequote_escapes
    comment := dialect.comment.toOption
    flexible := dialect.flexible }
  match dialect.quote with
  | Quote.Some character => { bldr with quoting := true, quote := character }
  | Quote.None => { bldr with quoting := false }

end CsvSniffer

namespace CsvSniffer

/-- C1: converting a `Dialect` into a `ReaderBuilder` configures the reader
exactly from the dialect's fields: delimiter, has-headers, terminator,
escape byte (`some c` iff `Escape.Enabled c`, `none` iff `Escape.Disabled`),
doubled-quote escaping, comment byte (`some c` iff `Comment.Enabled c`,
`none` iff `Comment.Disabled`), flexible; quoting is enabled with quote
byte `c` iff `quote = Quote.Some c`, and disabled iff `quote = Quote.None`. -/
theorem c1_dialect_to_reader_builder (d : Dialect) :
    d.toReaderBuilder.delimiter = d.delimiter ∧
    d.toReaderBuilder.has_headers = d.header.has_header_row ∧
    d.toReaderBuilder.terminator = d.terminator ∧
    (∀ c, d.toReaderBuilder.escape = some c ↔ d.escape = Escape.Enabled c) ∧
    (d.toReaderBuilder.escape = none ↔ d.escape = Escape.Disabled) ∧
    d.toReaderBuilder.double_quote = d.doublequote_escapes ∧
    (∀ c, d.toReaderBuilder.comment = some c ↔ d.comment = Comment.Enabled c) ∧
    (d.toReaderBuilder.comment = none ↔ d.comment = Comment.Disabled) ∧
    d.toReaderBuilder.flexible = d.flexible ∧
    (∀ c, (d.toReaderBuilder.quoting = true ∧ d.toReaderBuilder.quote = c) ↔
      d.quote = Quote.Some c) ∧
    (d.toReaderBuilder.quoting = false ↔ d.quote = Quote.None) := by
  obtain ⟨delim, hdr, term, q, dq, esc, com, flex⟩ := d
  cases q <;> cases esc <;> cases com <;>
    simp [Dialect.toReaderBuilder, Escape.toOption, Comment.toOption,
      Csv.ReaderBuilder.new]

/-- C3: `Dialect.eq` holds iff delimiter, header, quote, doubled-quote flag,
escape, comment and flexible agree and the terminators agree under the
canonical two-variant comparison (both CRLF, or both `Any` of equal bytes);
a CRLF terminator is never equal to an `Any` terminator. -/
theorem c3_dialect_eq_characterisation (a b : Dialect) :
    (Dialect.eq a b = true ↔
      (a.delimiter = b.delimiter ∧ a.header = b.header ∧
        a.quote = b.quote ∧ a.doublequote_escapes = b.doublequote_escapes ∧
        a.escape = b.escape ∧ a.comment = b.comment ∧ a.flexible = b.flexible ∧
        ((a.terminator = Terminator.CRLF ∧ b.terminator = Terminator.CRLF) ∨
          (∃ x, a.terminator = Terminator.Any x ∧
            b.terminator = Terminator.Any x)))) ∧
    (∀ x, a.terminator = Terminator.CRLF → b.terminator = Terminator.Any x →
      Dialect.eq a b = false) ∧
    (∀ x, a.terminator = Terminator.Any x → b.terminator = Terminator.CRLF →
      Dialect.eq a b = false) := by
  obtain ⟨da, ha, ta, qa, dqa, ea, ca, fa⟩ := a
  obtain ⟨db, hb, tb, qb, dqb, eb, cb, fb⟩ := b
  refine ⟨?_, ?_, ?_⟩
  · cases ta <;> cases tb <;> simp [Dialect.eq] <;> tauto
  · intro x h1 h2
    cases h1; cases h2
    simp [Dialect.eq]
  · intro x h1 h2
    cases h1; cases h2
    simp [Dialect.eq]

end CsvSniffer

namespace CsvSniffer

/-- The line-terminator byte used when skipping raw preamble lines. -/
def newline : Nat := 10

/-- Modelled from the spec: `snip_preamble` lives in `src/snip.rs`, which is
not among the staged sources.  Per the spec the reader handed to the `csv`
crate "must additionally be told to skip exactly `num_preamble_rows` raw
lines before beginning interpretation".  `dropLine` consumes one raw line:
every byte up to and including the first line-terminator byte. -/
def dropLine : List Nat → List Nat
  | [] => []
  | b :: rest => if b = newline then rest else dropLine rest

/-- Modelled from the spec: skipping `n` raw lines of the input, as
`snip_preamble(&mut rdr, n)` does before `open_reader` builds the reader. -/
def snip_preamble (input : List Nat) : Nat → List Nat
  | 0 => input
  | n + 1 => snip_preamble (dropLine input) n

/-- The `csv` crate's `Reader`, as the data `ReaderBuilder::from_reader`
receives: the accumulated configuration and the remaining input bytes. -/
structure CsvReader where
  builder : Csv.ReaderBuilder
  input : List Nat
deriving Repr

/-- `Dialect::open_reader` in `src/metadata.rs`: snip the preamble off the
reader, convert the dialect into a `ReaderBuilder`, and build the reader
from what remains of the input. -/
def Dialect.open_reader (d : Dialect) (rdr : List Nat) : CsvReader :=
  let rdr := snip_preamble rdr d.header.num_preamble_rows
  { builder := d.toReaderBuilder, input := rdr }

/-- `Dialect::open_path` in `src/metadata.rs`: open the file and delegate to
`open_reader` (the file is embedded as the byte contents it holds). -/
def Dialect.open_path (d : Dialect) (file : List Nat) : CsvReader :=
  d.open_reader file

/-- A list of raw lines (none containing the terminator byte), joined into
the terminator-separated byte stream they came from. -/
def joinLines (ls : List (List Nat)) : List Nat :=
  (ls.map (fun l => l ++ [newline])).join

theorem dropLine_join (l rest : List Nat) (hl : newline ∉ l) :
    dropLine (l ++ newline :: rest) = rest := by
  induction l with
  | nil => simp [dropLine, newline]
  | cons b bs ih =>
    have hb : b ≠ newline := fun h => hl (h ▸ List.mem_cons_self b bs)
    have hbs : newline ∉ bs := fun h => hl (List.mem_cons_of_mem b h)
    simp [dropLine, hb, ih hbs]

theorem snip_preamble_nil (n : Nat) : snip_preamble [] n = [] := by
  induction n with
  | zero => rfl
  | succ n ih => simpa [snip_preamble, dropLine] using ih

theorem snip_preamble_joinLines (ls : List (List Nat)) (n : Nat)
    (h : ∀ l ∈ ls, newline ∉ l) :
    snip_preamble (joinLines ls) n = joinLines (ls.drop n) := by
  induction n generalizing ls with
  | zero => rfl
  | succ n ih =>
    cases ls with
    | nil => simp [joinLines, snip_preamble, dropLine, snip_preamble_nil]
    | cons l ls =>
      have hl : newline ∉ l := h l (List.mem_cons_self l ls)
      have hls : ∀ x ∈ ls, newline ∉ x := fun x hx => h x (List.mem_cons_of_mem l hx)
      have hdrop : dropLine (joinLines (l :: ls)) = joinLines ls := by
        simpa [joinLines] using dropLine_join l (joinLines ls) hl
      simp [snip_preamble, hdrop, ih ls hls]

/-- C2: `open_reader` (and `open_path`, which delegates to it) skips exactly
`num_preamble_rows` raw lines of the input before constructing the reader,
so the reader's input begins at the first line after the preamble, and the
builder's has-headers flag is `header.has_header_row`. -/
theorem c2_open_reader_skips_preamble (d : Dialect) (ls : List (List Nat))
    (h : ∀ l ∈ ls, newline ∉ l) :
    (d.open_reader (joinLines ls)).input =
      joinLines (ls.drop d.header.num_preamble_rows) ∧
    (d.open_reader (joinLines ls)).builder.has_headers =
      d.header.has_header_row ∧
    (∀ file, d.open_path file = d.open_reader file) := by
  refine ⟨?_, ?_, fun _ => rfl⟩
  · simpa [Dialect.open_reader] using
      snip_preamble_joinLines ls d.header.num_preamble_rows h
  · obtain ⟨delim, hdr, term, q, dq, esc, com, flex⟩ := d
    cases q <;> simp [Dialect.open_reader, Dialect.toReaderBuilder,
      Csv.ReaderBuilder.new]

/-- Witness for C2 at a concrete dialect and input of three raw lines, with
one preamble row. -/
theorem c2_open_reader_skips_preamble_witness :
    ((Dialect.mk 44 ⟨true, 1⟩ Terminator.CRLF (Quote.Some 34) true
        Escape.Disabled Comment.Disabled false).open_reader
          (joinLines [[65], [66, 66], [67]])).input =
      joinLines [[66, 66], [67]] :=
  (c2_open_reader_skips_preamble
    (Dialect.mk 44 ⟨true, 1⟩ Terminator.CRLF (Quote.Some 34) true
      Escape.Disabled Comment.Disabled false)
    [[65], [66, 66], [67]] (by decide)).1

end CsvSniffer

namespace CsvSniffer

/-- Modelled from the spec: the column type lattice of `src/field_type.rs`
(not among the staged sources), an ordered lattice with the total order
Boolean < Integer < Float < Text, Text being the universal absorbing
supertype. -/
inductive FieldType where
  | Boolean : FieldType
  | Integer : FieldType
  | Float : FieldType
  | Text : FieldType
deriving DecidableEq, Repr, Fintype

/-- Position of a type in the total order Boolean < Integer < Float < Text. -/
def FieldType.rank : FieldType → Nat
  | FieldType.Boolean => 0
  | FieldType.Integer => 1
  | FieldType.Float => 2
  | FieldType.Text => 3

/-- Modelled from the spec: the lattice join (least common supertype), the
maximum under the total order. -/
def FieldType.join (s t : FieldType) : FieldType :=
  if s.rank ≤ t.rank then t else s

/-- Modelled from the spec: the fixed token set whose case-normalised
members classify as Boolean. -/
def boolTokens : List String := ["true", "false", "yes", "no", "1", "0"]

/-- ASCII case normalisation of one character. -/
def asciiLower (c : Char) : Char :=
  if 'A' ≤ c ∧ c ≤ 'Z' then Char.ofNat (c.toNat + 32) else c

/-- ASCII case normalisation of a value. -/
def lowerStr (s : String) : String :=
  String.mk (s.toList.map asciiLower)

/-- An optional leading sign. -/
def stripSign : List Char → List Char
  | '+' :: rest => rest
  | '-' :: rest => rest
  | cs => cs

/-- Modelled from the spec: an Integer value is an optional leading sign
followed by one or more decimal digits, matching the entire value. -/
def isIntegerChars (cs : List Char) : Bool :=
  let ds := stripSign cs
  !ds.isEmpty && ds.all Char.isDigit

/-- Consume a maximal run of decimal digits, returning how many were
consumed and the remainder. -/
def scanDigits : List Char → Nat × List Char
  | [] => (0, [])
  | c :: rest =>
    if c.isDigit then
      let (n, r) := scanDigits rest
      (n + 1, r)
    else (0, c :: rest)

/-- Modelled from the spec: a Float value matches the decimal-number grammar
with an optional sign, digits, an optional fractional part and an optional
exponent, matching the entire value. -/
def isFloatChars (cs : List Char) : Bool :=
  let ds := stripSign cs
  let (n, rest) := scanDigits ds
  if n = 0 then false
  else
    let rest2 := match rest with
      | '.' :: r2 => (scanDigits r2).2
      | _ => rest
    match rest2 with
    | [] => true
    | e :: r3 =>
      (e = 'e' || e = 'E') &&
        (let r4 := stripSign r3
         let (m, r5) := scanDigits r4
         decide (0 < m) && r5.isEmpty)

/-- Modelled from the spec: per-value classification, tried in lattice
order with the first match winning: Boolean for the fixed token set,
Integer for the integer grammar, Float for the decimal grammar, else
Text. -/
def infer_value (s : String) : FieldType :=
  if boolTokens.contains (lowerStr s) then FieldType.Boolean
  else if isIntegerChars s.toList then FieldType.Integer
  else if isFloatChars s.toList then FieldType.Float
  else FieldType.Text

/-- Modelled from the spec: per-column inference folds all non-empty
contributing values to their lattice join; a column with no non-empty
values infers as Text. -/
def infer_column (vals : List String) : FieldType :=
  let xs := vals.filter (fun v => !v.isEmpty)
  if xs.isEmpty then FieldType.Text
  else (xs.map infer_value).foldl FieldType.join FieldType.Boolean

instance : RightCommutative FieldType.join := ⟨by decide⟩

theorem infer_column_perm (l l' : List String) (h : l.Perm l') :
    infer_column l = infer_column l' := by
  have hf : (l.filter (fun v => !v.isEmpty)).Perm
      (l'.filter (fun v => !v.isEmpty)) := h.filter _
  have hm : ((l.filter (fun v => !v.isEmpty)).map infer_value).Perm
      ((l'.filter (fun v => !v.isEmpty)).map infer_value) := hf.map _
  by_cases he : l.filter (fun v => !v.isEmpty) = []
  · have he' : l'.filter (fun v => !v.isEmpty) = [] := by
      rw [he] at hf
      exact hf.symm.eq_nil
    simp [infer_column, he, he']
  · have he' : l'.filter (fun v => !v.isEmpty) ≠ [] := by
      intro hnil
      rw [hnil] at hf
      exact he hf.eq_nil
    simp only [infer_column, List.isEmpty_iff, if_neg he, if_neg he']
    exact hm.foldl_eq FieldType.Boolean

/-- C4: the column-type join is the maximum under the total order
Boolean < Integer < Float < Text; it is idempotent and commutative; folding
the values "1","2","3" infers Integer, additionally "3.5" infers Float,
additionally "four" infers Text; and the fold is order-independent. -/
theorem c4_type_lattice_join :
    (∀ s t : FieldType, s.join t = if s.rank ≤ t.rank then t else s) ∧
    (∀ t : FieldType, t.join t = t) ∧
    (∀ s t : FieldType, s.join t = t.join s) ∧
    infer_column ["1", "2", "3"] = FieldType.Integer ∧
    infer_column ["1", "2", "3", "3.5"] = FieldType.Float ∧
    infer_column ["1", "2", "3", "3.5", "four"] = FieldType.Text ∧
    (∀ (l l' : List String), l.Perm l' → infer_column l = infer_column l') :=
  ⟨fun _ _ => rfl, by decide, by decide, by decide, by decide, by decide,
    infer_column_perm⟩

end CsvSniffer

namespace CsvSniffer

/-- Modelled from the spec: the error kinds of the sniffing engine
(`src/error.rs` is not among the staged sources). -/
inductive SnifferError where
  | IoError : SnifferError
  | DecodeError : SnifferError
  | EmptyInput : SnifferError
  | NoDelimiterFound : SnifferError
deriving DecidableEq, Repr

/-- Split a character list on a separator character; a list with no
separator is one field, and each separator opens a new field. -/
def splitOnChar (d : Char) : List Char → List (List Char)
  | [] => [[]]
  | c :: rest =>
    let r := splitOnChar d rest
    if c = d then [] :: r
    else
      match r with
      | [] => [[c]]
      | f :: fs => (c :: f) :: fs

/-- Naively split one sampled line on a candidate delimiter (quoting is
ignored at this stage). -/
def splitLine (d : Char) (s : String) : List String :=
  (splitOnChar d s.toList).map String.mk

/-- Modelled from the spec: the fixed priority-ordered candidate delimiter
list (comma, tab, semicolon, pipe, colon). -/
def delimiterCandidates : List Char := [',', '\t', ';', '|', ':']

/-- Per-line naive-split field counts of the sample for one candidate. -/
def fieldCounts (lines : List String) (d : Char) : List Nat :=
  lines.map (fun s => (splitLine d s).length)

/-- The most frequent value of a list, ties resolved towards the larger
value (and 0 for an empty list). -/
def modeOf (l : List Nat) : Nat :=
  l.foldl
    (fun best v =>
      if l.count best < l.count v ∨ (l.count v = l.count best ∧ best < v)
      then v else best)
    0

/-- How many sampled lines have the candidate's modal field count. -/
def coverageCount (lines : List String) (d : Char) : Nat :=
  (fieldCounts lines d).count (modeOf (fieldCounts lines d))

/-- Modelled from the spec: a candidate delimiter qualifies when its modal
field count exceeds 1 (a candidate with mode <= 1 does not actually delimit
anything) and its coverage is at or above the fixed acceptance threshold
of 0.9 (stated over naturals: 9 * lines <= 10 * matching lines). -/
def qualifies (lines : List String) (d : Char) : Bool :=
  decide (1 < modeOf (fieldCounts lines d)) &&
    decide (9 * lines.length ≤ 10 * coverageCount lines d)

/-- Whether a later candidate strictly beats the current best: higher
coverage, or equal coverage and a higher mode (equal scores keep the
earlier candidate, realising the priority-order tie-break). -/
def strictlyBetter (lines : List String) (d best : Char) : Bool :=
  decide (coverageCount lines best < coverageCount lines d) ||
    (decide (coverageCount lines d = coverageCount lines best) &&
      decide (modeOf (fieldCounts lines best) < modeOf (fieldCounts lines d)))

/-- Modelled from the spec: delimiter detection scores the fixed candidate
list against the sampled lines, keeps the qualifying candidates, and picks
the highest-scoring one (coverage, then mode, then priority order); when no
candidate qualifies it fails with `NoDelimiterFound` rather than guessing. -/
def detect_delimiter (lines : List String) : Except SnifferError Char :=
  match delimiterCandidates.filter (qualifies lines) with
  | [] => Except.error SnifferError.NoDelimiterFound
  | c :: cs =>
    Except.ok (cs.foldl (fun best d => if strictlyBetter lines d best then d else best) c)

theorem foldl_pick_mem (g : Char → Char → Char)
    (hg : ∀ best d, g best d = best ∨ g best d = d) :
    ∀ (cs : List Char) (c : Char), cs.foldl g c ∈ c :: cs := by
  intro cs
  induction cs with
  | nil => intro c; simp
  | cons d cs ih =>
    intro c
    have h := ih (g c d)
    rcases hg c d with h1 | h1 <;> rw [h1] at h <;>
      simp only [List.foldl_cons, h1] <;>
      rcases List.mem_cons.mp h with h2 | h2 <;> simp [h2]

end CsvSniffer

namespace CsvSniffer

/-- C5: delimiter detection returns `NoDelimiterFound` iff no candidate
delimiter has a modal naive-split field count above 1 together with
coverage at or above the 0.9 acceptance threshold; and any delimiter it
does return is a candidate satisfying both conditions (mode <= 1
candidates are never selected, and no delimiter is guessed on failure). -/
theorem c5_no_delimiter_found (lines : List String) :
    (detect_delimiter lines = Except.error SnifferError.NoDelimiterFound ↔
      ¬ ∃ d ∈ delimiterCandidates,
        1 < modeOf (fieldCounts lines d) ∧
          9 * lines.length ≤ 10 * coverageCount lines d) ∧
    (∀ d, detect_delimiter lines = Except.ok d →
      d ∈ delimiterCandidates ∧ 1 < modeOf (fieldCounts lines d) ∧
        9 * lines.length ≤ 10 * coverageCount lines d) := by
  have hq : ∀ d, qualifies lines d = true ↔
      (1 < modeOf (fieldCounts lines d) ∧
        9 * lines.length ≤ 10 * coverageCount lines d) := by
    intro d
    simp [qualifies]
  cases hf : delimiterCandidates.filter (qualifies lines) with
  | nil =>
    have hnone : ∀ d ∈ delimiterCandidates, ¬ qualifies lines d = true :=
      List.filter_eq_nil_iff.mp hf
    refine ⟨?_, ?_⟩
    · simp only [detect_delimiter, hf, true_iff]
      rintro ⟨d, hd, hcond⟩
      exact hnone d hd ((hq d).mpr hcond)
    · intro d hd
      rw [detect_delimiter, hf] at hd
      exact absurd hd (by simp)
  | cons c cs =>
    have hg : ∀ best d,
        (if strictlyBetter lines d best then d else best) = best ∨
          (if strictlyBetter lines d best then d else best) = d := by
      intro best d
      by_cases h : strictlyBetter lines d best = true <;> simp [h]
    have hr : cs.foldl (fun best d => if strictlyBetter lines d best then d else best) c
        ∈ c :: cs := foldl_pick_mem _ hg cs c
    have hr2 : cs.foldl (fun best d => if strictlyBetter lines d best then d else best) c
        ∈ delimiterCandidates.filter (qualifies lines) := hf ▸ hr
    have hr3 := List.mem_filter.mp hr2
    have hc : c ∈ delimiterCandidates.filter (qualifies lines) := by
      rw [hf]; exact List.mem_cons_self c cs
    have hc2 := List.mem_filter.mp hc
    refine ⟨?_, ?_⟩
    · rw [detect_delimiter, hf]
      simp only [reduceCtorEq, false_iff, not_not]
      exact ⟨c, hc2.1, (hq c).mp hc2.2⟩
    · intro d hd
      rw [detect_delimiter, hf] at hd
      have : cs.foldl (fun best d => if strictlyBetter lines d best then d else best) c = d :=
        by injection hd
      rw [← this]
      exact ⟨hr3.1, (hq _).mp hr3.2⟩

end CsvSniffer

namespace CsvSniffer

/-- Modelled from the spec: header detection compares, per column, the
first post-preamble line's inferred field type against the aggregate type
inferred from the remaining post-preamble lines; a header row is declared
present iff some column differs.  With fewer than two post-preamble lines
the detector returns false (insufficient evidence).  A missing trailing
field reads as the empty value. -/
def infer_header (rows : List (List String)) (nf : Nat) : Bool :=
  match rows with
  | [] => false
  | first :: rest =>
    if rest.isEmpty then false
    else
      (List.range nf).any (fun i =>
        infer_value (first.getD i "") ≠
          infer_column (rest.map (fun r => r.getD i "")))

/-- Primary CSV metadata (`Metadata` in `src/metadata.rs`): the dialect,
the (maximum) number of fields per record, and the inferred field types. -/
structure Metadata where
  dialect : Dialect
  num_fields : Nat
  types : List FieldType
deriving DecidableEq, Repr

/-- Strip a trailing carriage-return, so a CRLF-terminated line reads the
same as an LF-terminated one. -/
def stripCR (l : List Char) : List Char :=
  if l.getLast? = some '\r' then l.dropLast else l

/-- Decode sampled bytes into text lines: split on the line-feed byte,
drop the empty tail segment a terminator-ended sample produces, and strip
carriage-returns. -/
def toLines (cs : List Char) : List String :=
  let raw := splitOnChar '\n' cs
  let raw := if raw.getLast? = some [] then raw.dropLast else raw
  raw.map (fun l => String.mk (stripCR l))

/-- Modelled from the spec: the pure sniffing pipeline over the decoded
sample (`src/lib.rs` is not among the staged sources).  The stages run
strictly in sequence: decode, delimiter detection, shape analysis (modal
field count, leading preamble run, flexibility), header detection, and
per-column type inference over the data rows; quote, escape, comment and
terminator detection are beyond the claims settled here and keep the
documented defaults of `src/metadata.rs` (no quoting, doubled-quote
escapes on, escapes and comments disabled, CRLF terminator).  Any stage
failure is terminal: no partial `Metadata` is produced. -/
def sniff_core (maxLines : Nat) (bytes : List Nat) : Except SnifferError Metadata :=
  if ¬ bytes.all (fun b => b < 128) then Except.error SnifferError.DecodeError
  else
    let lines := (toLines (bytes.map (fun b => Char.ofNat b))).take maxLines
    if lines.isEmpty then Except.error SnifferError.EmptyInput
    else
      match detect_delimiter lines with
      | Except.error e => Except.error e
      | Except.ok delim =>
        let allRows := lines.map (splitLine delim)
        let counts := allRows.map List.length
        let nf := modeOf counts
        let preamble := (counts.takeWhile (fun c => c ≠ nf)).length
        let rows := allRows.drop preamble
        let flexible := rows.any (fun r => r.length ≠ nf)
        let hasHeader := infer_header rows nf
        let dataRows := if hasHeader then rows.drop 1 else rows
        let types := (List.range nf).map (fun i =>
          infer_column (dataRows.map (fun r => r.getD i "")))
        Except.ok
          { dialect :=
              { delimiter := delim.toNat
                header := { has_header_row := hasHeader, num_preamble_rows := preamble }
                terminator := Terminator.CRLF
                quote := Quote.None
                doublequote_escapes := true
                escape := Escape.Disabled
                comment := Comment.Disabled
                flexible := flexible }
            num_fields := nf
            types := types }

/-- A readable, seekable byte source: the bytes it holds and the current
read position. -/
structure ReadState where
  data : List Nat
  pos : Nat
deriving DecidableEq, Repr

/-- Modelled from the spec: `sniff_reader` samples a bounded prefix from
the current position (advancing the position by the bytes read), seeks the
source back to the start of input, and runs the pure pipeline on the
sample; the restored source state is returned on every exit path, success
or error. -/
def sniff_reader (maxLines maxBytes : Nat) (r : ReadState) :
    Except SnifferError Metadata × ReadState :=
  let bytes := (r.data.drop r.pos).take maxBytes
  let afterRead : ReadState := { r with pos := r.pos + bytes.length }
  let restored : ReadState := { afterRead with pos := 0 }
  (sniff_core maxLines bytes, restored)

/-- Modelled from the spec: `sniff_path` opens the file (embedded as the
byte contents it holds) and delegates to `sniff_reader` from position 0. -/
def sniff_path (maxLines maxBytes : Nat) (file : List Nat) :
    Except SnifferError Metadata :=
  (sniff_reader maxLines maxBytes { data := file, pos := 0 }).1

end CsvSniffer

namespace CsvSniffer

/-- C6: every `Metadata` value returned by a successful `sniff_reader`
call has a types vector whose length equals `num_fields`; `sniff_path`
delegates to `sniff_reader` on the file contents, so its successful
results are covered by the same fact. -/
theorem c6_metadata_types_length (maxLines maxBytes : Nat) (r : ReadState)
    (m : Metadata) (h : (sniff_reader maxLines maxBytes r).1 = Except.ok m) :
    m.types.length = m.num_fields ∧
      ∀ file, sniff_path maxLines maxBytes file =
        (sniff_reader maxLines maxBytes { data := file, pos := 0 }).1 := by
  refine ⟨?_, fun file => rfl⟩
  simp only [sniff_reader, sniff_core] at h
  split at h
  · exact absurd h (by simp)
  · split at h
    · exact absurd h (by simp)
    · split at h
      · exact absurd h (by simp)
      · injection h with h2
        rw [← h2]
        simp

/-- Witness for C6: sniffing the sample "a,b\n1,2\n3,4\n" succeeds with two
Integer columns, and the types vector length equals the field count. -/
theorem c6_metadata_types_length_witness :
    (Metadata.mk
      (Dialect.mk 44 (Header.mk true 0) Terminator.CRLF Quote.None true
        Escape.Disabled Comment.Disabled false) 2
      [FieldType.Integer, FieldType.Integer]).types.length =
      (Metadata.mk
        (Dialect.mk 44 (Header.mk true 0) Terminator.CRLF Quote.None true
          Escape.Disabled Comment.Disabled false) 2
        [FieldType.Integer, FieldType.Integer]).num_fields :=
  (c6_metadata_types_length 100 100
    (ReadState.mk [97, 44, 98, 10, 49, 44, 50, 10, 51, 44, 52, 10] 0)
    (Metadata.mk
      (Dialect.mk 44 (Header.mk true 0) Terminator.CRLF Quote.None true
        Escape.Disabled Comment.Disabled false) 2
      [FieldType.Integer, FieldType.Integer]) (by rfl)).1

/-- C7: on every exit path of a sniff invocation, success or error, the
returned source state is positioned at the start of input (byte zero) with
its contents untouched, so a subsequent full parse sees the complete file
including the sampled prefix. -/
theorem c7_source_position_restored (maxLines maxBytes : Nat) (r : ReadState) :
    (sniff_reader maxLines maxBytes r).2.pos = 0 ∧
      (sniff_reader maxLines maxBytes r).2.data = r.data :=
  ⟨rfl, rfl⟩

/-- C8: with fewer than two post-preamble lines header detection returns
false; with at least two, it returns true iff some column of the first
line has an inferred field type different from the aggregate type inferred
from the remaining lines. -/
theorem c8_header_detection (rows : List (List String)) (nf : Nat) :
    (rows.length < 2 → infer_header rows nf = false) ∧
    (2 ≤ rows.length →
      (infer_header rows nf = true ↔
        ∃ i < nf, infer_value ((rows.headD []).getD i "") ≠
          infer_column (rows.tail.map (fun r => r.getD i "")))) := by
  cases rows with
  | nil =>
    refine ⟨fun _ => rfl, fun h => ?_⟩
    simp at h
  | cons first rest =>
    cases rest with
    | nil =>
      refine ⟨fun _ => by simp [infer_header], fun h => ?_⟩
      simp at h
    | cons b bs =>
      refine ⟨fun h => by simp at h; omega, fun _ => ?_⟩
      simp [infer_header, List.any_eq_true, List.mem_range]

end CsvSniffer

namespace CsvSniffer

/-- The observable outcome of one CLI invocation of `src/bin/sniff.rs`:
the lines printed to standard output and to standard error, the process
exit status, and whether sniffing was attempted at all. -/
structure CliOutcome where
  stdout : List String
  stderr : List String
  exitStatus : Nat
  sniffAttempted : Bool
deriving DecidableEq, Repr

/-- `main` in `src/bin/sniff.rs`: with an argument count other than 2 it
prints the usage line naming the program (argv element 0) to standard
error and exits with status 1 before sniffing; otherwise it sniffs the
given path and either prints the rendered metadata to standard output or
prints the error, prefixed "ERROR: ", to standard error, falling off the
end of `main` (exit status 0) in both cases.  The sniff outcome stands in
for `Sniffer::new().sniff_path(&args[1])` — the sniffer itself lives in
`src/lib.rs`, which is not among the staged sources — carrying the
rendered `Display` text of the metadata or of the error. -/
def sniff_main (args : List String) (sniffResult : Except String String) :
    CliOutcome :=
  if args.length ≠ 2 then
    { stdout := []
      stderr := ["Usage: " ++ args.headD "" ++ " <file>"]
      exitStatus := 1
      sniffAttempted := false }
  else
    match sniffResult with
    | Except.ok metadata =>
      { stdout := [metadata], stderr := [], exitStatus := 0, sniffAttempted := true }
    | Except.error err =>
      { stdout := [], stderr := ["ERROR: " ++ err], exitStatus := 0, sniffAttempted := true }

/-- C9: invoked with exactly one positional file argument, the CLI prints
the rendered metadata to standard output on success, and on failure prints
the error message to standard error while the process still exits with
status zero. -/
theorem c9_cli_failure_exit_status (args : List String)
    (res : Except String String) (h : args.length = 2) :
    (∀ md, res = Except.ok md →
      sniff_main args res =
        { stdout := [md], stderr := [], exitStatus := 0, sniffAttempted := true }) ∧
    (∀ e, res = Except.error e →
      sniff_main args res =
        { stdout := [], stderr := ["ERROR: " ++ e], exitStatus := 0,
          sniffAttempted := true }) := by
  constructor
  · rintro md rfl
    simp [sniff_main, h]
  · rintro e rfl
    simp [sniff_main, h]

/-- Witness for C9: a failing sniff under one positional argument writes
the error to standard error and exits with status zero. -/
theorem c9_cli_failure_exit_status_witness :
    sniff_main ["sniff", "data.csv"] (Except.error "oops") =
      { stdout := [], stderr := ["ERROR: oops"], exitStatus := 0,
        sniffAttempted := true } :=
  (c9_cli_failure_exit_status ["sniff", "data.csv"] (Except.error "oops")
    (by rfl)).2 "oops" rfl

/-- C10: invoked with an argument count other than 2, the CLI prints a
usage message naming the program to standard error and terminates with
exit status 1, without attempting to sniff. -/
theorem c10_cli_usage_exit (args : List String) (res : Except String String)
    (h : args.length ≠ 2) :
    sniff_main args res =
      { stdout := []
        stderr := ["Usage: " ++ args.headD "" ++ " <file>"]
        exitStatus := 1
        sniffAttempted := false } := by
  simp [sniff_main, h]

/-- Witness for C10: a bare invocation (argv length 1) prints the usage
line and exits with status 1 without sniffing. -/
theorem c10_cli_usage_exit_witness :
    sniff_main ["sniff"] (Except.ok "report") =
      { stdout := []
        stderr := ["Usage: " ++ "sniff" ++ " <file>"]
        exitStatus := 1
        sniffAttempted := false } :=
  c10_cli_usage_exit ["sniff"] (Except.ok "report") (by decide)

end CsvSniffer
